import Mathlib

/-!
Verification development for the container-registry authentication slice:
the `BasicOAuthProvider` state machine (Basic→OAuth fallback negotiation)
and the `httpRequest` wrapper. Definitions shallowly embed the TypeScript
source; JavaScript values that may be `undefined` are embedded as `Option`,
fallible operations as `Except`.
-/

/-- ASCII lower-casing, matching the case canonicalisation a non-unicode
JavaScript regex with the `i` flag performs on the ASCII literals of the
challenge pattern. -/
def asciiLower (c : Char) : Char :=
  if 65 ≤ c.toNat && c.toNat ≤ 90 then Char.ofNat (c.toNat + 32) else c

/-- JavaScript regex whitespace class `\s`. -/
def isJsSpace (c : Char) : Bool :=
  c = ' ' || c = '\t' || c = '\n' || c = '\r' ||
  c.toNat = 11 || c.toNat = 12 || c.toNat = 160 || c.toNat = 5760 ||
  (8192 ≤ c.toNat && c.toNat ≤ 8202) || c.toNat = 8232 || c.toNat = 8233 ||
  c.toNat = 8239 || c.toNat = 8287 || c.toNat = 12288 || c.toNat = 65279

/-- Match a literal character sequence case-insensitively (ASCII folding),
returning the remaining input on success. -/
def matchLitCI : List Char → List Char → Option (List Char)
  | [], cs => some cs
  | _ :: _, [] => none
  | l :: ls, c :: cs => if asciiLower c = asciiLower l then matchLitCI ls cs else none

/-- Greedy one-or-more character-class match (`[^"]+` / `\s+`): returns the
nonempty matched prefix and the rest, or `none` when the first character
fails the class. -/
def takeWhile1 (p : Char → Bool) : List Char → Option (List Char × List Char)
  | [] => none
  | c :: cs => if p c then some (c :: cs.takeWhile p, cs.dropWhile p) else none

/-- Structured result of the WWW-Authenticate challenge pattern: the three
captured groups, verbatim (scope still unsplit). -/
structure Challenge where
  realm : String
  service : String
  scope : String
deriving DecidableEq, Repr

/-- Attempt the challenge regex
`Bearer\s+realm="([^"]+)",\s*service="([^"]+)",\s*scope="([^"]+)"` (flag `i`)
at the head of the input. Greedy matching is exact here because no
backtracking can ever help: each character class is disjoint from the
character that follows it. -/
def matchChallengeAt (cs : List Char) : Option Challenge :=
  match matchLitCI "bearer".toList cs with
  | none => none
  | some cs =>
  match takeWhile1 isJsSpace cs with
  | none => none
  | some (_, cs) =>
  match matchLitCI "realm=\"".toList cs with
  | none => none
  | some cs =>
  match takeWhile1 (fun c => c != '"') cs with
  | none => none
  | some (realm, cs) =>
  match matchLitCI "\",".toList cs with
  | none => none
  | some cs =>
  match matchLitCI "service=\"".toList (cs.dropWhile isJsSpace) with
  | none => none
  | some cs =>
  match takeWhile1 (fun c => c != '"') cs with
  | none => none
  | some (service, cs) =>
  match matchLitCI "\",".toList cs with
  | none => none
  | some cs =>
  match matchLitCI "scope=\"".toList (cs.dropWhile isJsSpace) with
  | none => none
  | some cs =>
  match takeWhile1 (fun c => c != '"') cs with
  | none => none
  | some (scope, cs) =>
  match matchLitCI "\"".toList cs with
  | none => none
  | some _ => some ⟨String.mk realm, String.mk service, String.mk scope⟩

/-- Embedding of `RegExp.prototype.exec`: leftmost match of the challenge pattern in the
header string. -/
def execChallenge : List Char → Option Challenge
  | [] => none
  | c :: cs =>
    match matchChallengeAt (c :: cs) with
    | some ch => some ch
    | none => execChallenge cs

/-- The challenge parser applied to a header string. -/
def parseChallenge (h : String) : Option Challenge := execChallenge h.toList

/-- Standard base64 alphabet. -/
def b64Chars : List Char :=
  "ABCDEFGHIJKLMNOPQRSTUVWXYZabcdefghijklmnopqrstuvwxyz0123456789+/".toList

/-- Digit of the base64 alphabet. -/
def b64Char (n : Nat) : Char := b64Chars.getD n 'A'

/-- Base64 encoding of a byte sequence with `=` padding, as
`Buffer.prototype.toString` with encoding `base64` produces. -/
def base64Encode : List Nat → List Char
  | [] => []
  | [a] => [b64Char (a / 4), b64Char (a % 4 * 16), '=', '=']
  | [a, b] => [b64Char (a / 4), b64Char (a % 4 * 16 + b / 16), b64Char (b % 16 * 4), '=']
  | a :: b :: c :: rest =>
    b64Char (a / 4) :: b64Char (a % 4 * 16 + b / 16) ::
    b64Char (b % 16 * 4 + c / 64) :: b64Char (c % 64) :: base64Encode rest

/-- UTF-8 encoding of one scalar value. -/
def utf8EncodeChar (c : Char) : List Nat :=
  let n := c.toNat
  if n < 128 then [n]
  else if n < 2048 then [192 + n / 64, 128 + n % 64]
  else if n < 65536 then [224 + n / 4096, 128 + n / 64 % 64, 128 + n % 64]
  else [240 + n / 262144, 128 + n / 4096 % 64, 128 + n / 64 % 64, 128 + n % 64]

/-- UTF-8 bytes of a string, as `Buffer.from(s)` produces. -/
def utf8Bytes (s : String) : List Nat := (s.toList.map utf8EncodeChar).flatten

/-- Base64 of the UTF-8 encoding of a string. -/
def base64 (s : String) : String := String.mk (base64Encode (utf8Bytes s))

/-- Encoding of `BasicOAuthProvider.getBasicAuthToken`:
`Buffer.from(username + ":" + secret).toString("base64")`. -/
def getBasicAuthToken (username secret : String) : String :=
  base64 (username ++ ":" ++ secret)

/-- Error taxonomy of the slice. `unauthorized` carries the request URL,
`challengeParse` the raw header text, the credential errors the storage
key, mirroring the information each thrown `Error` message carries. -/
inductive Err where
  | credentialsNotFound (msg : String)
  | challengeParse (header : String)
  | unauthorized (url : String)
  | transport (msg : String)
  | bodyParse (msg : String)
  | notImplemented
deriving DecidableEq, Repr

/-- User-facing message of an error, built as the source templates build it
(URL quoting normalized to double quotes). -/
def errMessage : Err → String
  | .credentialsNotFound m => m
  | .challengeParse h => "Unable to parse WWW-Authenticate header: \"" ++ h ++ "\""
  | .unauthorized url => "Request to \"" ++ url ++ "\" failed with status code 401: Unauthorized"
  | .transport m => m
  | .bodyParse m => m
  | .notImplemented => "TODO: Method not implemented."

/-- Result of `vscode.SecretStorage.get`: the TypeScript code distinguishes
`undefined`, `null` and a string value. -/
inductive SecretResult where
  | undef
  | null
  | val (s : String)
deriving DecidableEq, Repr

/-- The two constructor-injected stores: the durable memento (username) and
the secret storage, each a key-value lookup. -/
structure Stores where
  memento : String → Option String
  secrets : String → SecretResult

/-- Credential pair; the secret may be the empty string. -/
structure BasicCredentials where
  username : String
  secret : String
deriving DecidableEq, Repr

/-- Embedding of `BasicOAuthProvider.getBasicCredentials`: reads
`{storageKey}.username` from the memento and `{storageKey}.secret` from
secret storage; rejects a falsy username (absent or empty) and a strictly
absent (`undefined`/`null`) secret; an empty-string secret is accepted. -/
def getBasicCredentials (stores : Stores) (storageKey : String) : Except Err BasicCredentials :=
  let username := stores.memento (storageKey ++ ".username")
  let secret := stores.secrets (storageKey ++ ".secret")
  match username with
  | none => .error (.credentialsNotFound ("Could not load username for " ++ storageKey))
  | some u =>
    if u = "" then .error (.credentialsNotFound ("Could not load username for " ++ storageKey))
    else
      match secret with
      | .undef => .error (.credentialsNotFound ("Could not load secret for " ++ storageKey))
      | .null => .error (.credentialsNotFound ("Could not load secret for " ++ storageKey))
      | .val s => .ok ⟨u, s⟩

/-- Accumulator loop of `jsSplitOnSpace`. -/
def splitOnSpaceAux : List Char → List Char → List String
  | [], acc => [String.mk acc.reverse]
  | c :: cs, acc =>
    if c = ' ' then String.mk acc.reverse :: splitOnSpaceAux cs []
    else splitOnSpaceAux cs (c :: acc)

/-- JavaScript `s.split(" ")`: split on every single space, keeping empty
pieces (and yielding one piece when no space occurs). -/
def jsSplitOnSpace (s : String) : List String := splitOnSpaceAux s.toList []

/-- Mutable per-instance state of `BasicOAuthProvider`; `undefined` fields
embedded as `none`. -/
structure ProviderState where
  oAuthEndpoint : Option String
  oAuthService : Option String
  defaultScopes : Option (List String)
  didFallback : Bool
deriving DecidableEq, Repr

/-- State at provider construction: all fields unset, `didFallback` false. -/
def initState : ProviderState := ⟨none, none, none, false⟩

/-- Embedding of `BasicOAuthProvider.fallback`: run the challenge regex on
the header; if there is no match or any captured group is empty, throw with
the raw header in the message; otherwise set endpoint, service, the scope
split on single spaces, and `didFallback`. -/
def fallback (st : ProviderState) (h : String) : Except Err ProviderState :=
  match parseChallenge h with
  | none => .error (.challengeParse h)
  | some c =>
    if c.realm = "" || c.service = "" || c.scope = "" then .error (.challengeParse h)
    else .ok ⟨some c.realm, some c.service, some (jsSplitOnSpace c.scope), true⟩

/-- Whether a `fallback` call with this header succeeds (state independent). -/
def challengeOk (h : String) : Bool :=
  match parseChallenge h with
  | none => false
  | some c => !(c.realm = "" || c.service = "" || c.scope = "")

/-- Embedding of `BasicOAuthProvider.removeSession`: always throws. -/
def removeSession (sessionId : Option String) : Except Err Unit :=
  .error .notImplemented

/-- What `fetch` hands back on success: status, status text, raw header
entries and the (lazily parsed) JSON body outcome. -/
structure FetchedResponse (α : Type) where
  status : Nat
  statusText : String
  headerEntries : List (String × String)
  jsonResult : Except String α

/-- Normalized response shape returned by `httpRequest`. -/
structure ResponseLike (α : Type) where
  headers : List (String × String)
  status : Nat
  statusText : String
  succeeded : Bool
  jsonResult : Except String α

/-- JavaScript object assignment `obj[k] = v`: overwrite in place when the
key exists, append otherwise. -/
def recordSet (m : List (String × String)) (k v : String) : List (String × String) :=
  if m.any (fun p => p.1 = k) then m.map (fun p => if p.1 = k then (k, v) else p)
  else m ++ [(k, v)]

/-- Header flattening loop of `httpRequest`: later entry wins on duplicate
names. -/
def flattenHeaders (entries : List (String × String)) : List (String × String) :=
  entries.foldl (fun m p => recordSet m p.1 p.2) []

/-- Embedding of `httpRequest`: the transport outcome (`fetch`) is passed in
as an `Except`; a transport rejection propagates; when `throwOnFailure` is
true (the source default) and the status is 401 an `unauthorized` error
carrying the URL is thrown; otherwise the normalized response is returned
with `succeeded` iff the status is in [200, 300). -/
def httpRequest (url : String) (fetchResult : Except String (FetchedResponse α))
    (throwOnFailure : Bool) : Except Err (ResponseLike α) :=
  match fetchResult with
  | .error m => .error (.transport m)
  | .ok r =>
    if throwOnFailure && r.status == 401 then .error (.unauthorized url)
    else .ok ⟨flattenHeaders r.headerEntries, r.status, r.statusText,
              decide (200 ≤ r.status ∧ r.status < 300), r.jsonResult⟩

/-- Request descriptor built by the OAuth branch of `getSession`. -/
structure OAuthRequest where
  method : String
  headers : List (String × String)
deriving DecidableEq, Repr

/-- Parsed JSON body of the token endpoint response; the `token` field may
be absent. -/
structure TokenBody where
  token : Option String
deriving DecidableEq, Repr

/-- Authentication session returned by `getSession`. `accessToken` is an
`Option` because in the OAuth branch it is whatever the `token` field of
the body holds, possibly `undefined`. -/
structure Session where
  id : String
  type : String
  accountLabel : String
  accountId : String
  accessToken : Option String
  scopes : List String
deriving DecidableEq, Repr

/-- Embedding of `BasicOAuthProvider.getSession`. The HTTP collaborator is a
function from URL and request to a transport outcome. Besides the session,
the result records the network call made (`none` in the Basic branch),
so that absence of network activity is part of the statement. -/
def getSession (st : ProviderState) (stores : Stores) (storageKey : String)
    (transport : String → OAuthRequest → Except String (FetchedResponse TokenBody))
    (scopes : List String) : Except Err (Session × Option (String × OAuthRequest)) :=
  match getBasicCredentials stores storageKey with
  | .error e => .error e
  | .ok creds =>
    match st.oAuthEndpoint, st.oAuthService with
    | some ep, some svc =>
      let req : OAuthRequest :=
        ⟨"GET",
         [("Authorization", "Basic " ++ getBasicAuthToken creds.username creds.secret),
          ("grant_type", "password"),
          ("service", svc),
          ("scope", String.intercalate " " (st.defaultScopes.getD [] ++ scopes))]⟩
      match httpRequest ep (transport ep req) true with
      | .error e => .error e
      | .ok resp =>
        match resp.jsonResult with
        | .error m => .error (.bodyParse m)
        | .ok body =>
          .ok (⟨"oauth", "Bearer", creds.username, creds.username, body.token, scopes⟩,
               some (ep, req))
    | _, _ =>
      .ok (⟨"basic", "Basic", creds.username, creds.username,
            some (getBasicAuthToken creds.username creds.secret), scopes⟩, none)

/-- One public operation on a provider instance, with the collaborator
inputs that call observes. -/
inductive Op where
  | getSessionOp (stores : Stores) (storageKey : String)
      (transport : String → OAuthRequest → Except String (FetchedResponse TokenBody))
      (scopes : List String)
  | fallbackOp (header : String)
  | didFallbackQuery
  | removeSessionOp (sessionId : Option String)

/-- State after one operation: only a successful `fallback` assigns to any
field; a failing `fallback` throws before its first assignment, and the
other operations never assign. -/
def applyOp (st : ProviderState) : Op → ProviderState
  | .getSessionOp _ _ _ _ => st
  | .fallbackOp h =>
    match fallback st h with
    | .ok st2 => st2
    | .error _ => st
  | .didFallbackQuery => st
  | .removeSessionOp _ => st

/-- State after a sequence of operations. -/
def runOps (st : ProviderState) (ops : List Op) : ProviderState := ops.foldl applyOp st

/-- Whether an operation is a `fallback` call that succeeds. -/
def isFallbackSuccess : Op → Bool
  | .fallbackOp h => challengeOk h
  | _ => false

/-- Whether an operation is a `fallback` call at all. -/
def isFallbackOp : Op → Bool
  | .fallbackOp _ => true
  | _ => false

/-- OAuth mode: both endpoint and service present. -/
def oauthMode (st : ProviderState) : Bool :=
  st.oAuthEndpoint.isSome && st.oAuthService.isSome

/-- The both-or-neither shape of the two optional endpoint fields. -/
def bothOrNeither (st : ProviderState) : Prop :=
  st.oAuthEndpoint.isSome = st.oAuthService.isSome

/-- Sample challenge header from the spec. -/
def goodHeader : String :=
  "Bearer realm=\"https://auth.example/token\", service=\"registry.example\", scope=\"repository:x:pull\""

/-- Sample malformed header: Basic scheme instead of Bearer. -/
def badHeader : String := "Basic realm=\"https://auth.example/token\""

/-- Sample store fixture holding the credentials (alice, s3cr3t) under key
`reg`. -/
def storesAlice : Stores :=
  ⟨fun k => if k = "reg.username" then some "alice" else none,
   fun k => if k = "reg.secret" then SecretResult.val "s3cr3t" else SecretResult.undef⟩

/-- Store fixture with a present username and an empty-string secret. -/
def storesEmptySecret : Stores :=
  ⟨fun k => if k = "reg.username" then some "alice" else none,
   fun k => if k = "reg.secret" then SecretResult.val "" else SecretResult.undef⟩

/-- Store fixture with a present username and a `null` secret. -/
def storesNullSecret : Stores :=
  ⟨fun k => if k = "reg.username" then some "alice" else none,
   fun _ => SecretResult.null⟩

/-- Store fixture with no username at all. -/
def storesNoUser : Stores := ⟨fun _ => none, fun _ => SecretResult.val "x"⟩

/-- Transport fixture that fails every call: a session obtained against it
proves no network call was consulted. -/
def noNetwork : String → OAuthRequest → Except String (FetchedResponse TokenBody) :=
  fun _ _ => .error "network unavailable"

/-- Provider state after the sample fallback of the spec. -/
def oauthState : ProviderState :=
  ⟨some "https://auth.example/token", some "registry.example",
   some ["repository:x:pull"], true⟩

/-- Token endpoint response fixture with a given status. -/
def tokenResp (status : Nat) : FetchedResponse TokenBody :=
  ⟨status, "", [("content-type", "application/json")], .ok ⟨some "opaque-token"⟩⟩

/-- Transport fixture answering every call with `tokenResp status`. -/
def okTransport (status : Nat) : String → OAuthRequest → Except String (FetchedResponse TokenBody) :=
  fun _ _ => .ok (tokenResp status)

/-- The token request the OAuth branch of `getSession` builds, abbreviated
for reuse in statements: a GET whose headers are the Basic authorization,
`grant_type=password`, the service, and the space-joined concatenation of
the default scopes (empty when absent) with the caller scopes. -/
def oauthReq (st : ProviderState) (u s svc : String) (scopes : List String) : OAuthRequest :=
  ⟨"GET",
   [("Authorization", "Basic " ++ getBasicAuthToken u s),
    ("grant_type", "password"),
    ("service", svc),
    ("scope", String.intercalate " " (st.defaultScopes.getD [] ++ scopes))]⟩

theorem String_mk_ne_empty {l : List Char} (h : l ≠ []) : String.mk l ≠ "" := by
  intro he
  exact h (congrArg String.data he)

theorem takeWhile1_ne_nil {p : Char → Bool} {cs tk rest : List Char}
    (h : takeWhile1 p cs = some (tk, rest)) : tk ≠ [] := by
  cases cs with
  | nil => exact absurd h (by simp [takeWhile1])
  | cons c cs =>
    by_cases hp : p c
    · simp [takeWhile1, hp] at h
      intro he
      rw [← h.1] at he
      exact List.cons_ne_nil _ _ he
    · simp [takeWhile1, hp] at h

/-- Any challenge the pattern matcher accepts has all three captured groups
nonempty, because each group is a one-or-more character class. -/
theorem matchChallengeAt_groups {cs : List Char} {c : Challenge}
    (h : matchChallengeAt cs = some c) :
    c.realm ≠ "" ∧ c.service ≠ "" ∧ c.scope ≠ "" := by
  unfold matchChallengeAt at h
  repeat' split at h
  all_goals try exact Option.noConfusion h
  injection h with h
  subst h
  exact ⟨String_mk_ne_empty (takeWhile1_ne_nil (by assumption)),
         String_mk_ne_empty (takeWhile1_ne_nil (by assumption)),
         String_mk_ne_empty (takeWhile1_ne_nil (by assumption))⟩

/-- The leftmost-match search preserves the group nonemptiness. -/
theorem execChallenge_groups {cs : List Char} {c : Challenge}
    (h : execChallenge cs = some c) :
    c.realm ≠ "" ∧ c.service ≠ "" ∧ c.scope ≠ "" := by
  induction cs with
  | nil => exact absurd h (by simp [execChallenge])
  | cons x xs ih =>
    rw [execChallenge] at h
    split at h
    · rename_i hm
      injection h with h
      subst h
      exact matchChallengeAt_groups hm
    · exact ih h

/-- A regex match always drives `fallback` into its success branch: the
redundant empty-group check in the source can never fire. -/
theorem fallback_of_parse (st : ProviderState) (h : String) (c : Challenge)
    (hp : parseChallenge h = some c) :
    fallback st h = .ok ⟨some c.realm, some c.service, some (jsSplitOnSpace c.scope), true⟩ := by
  have hg : c.realm ≠ "" ∧ c.service ≠ "" ∧ c.scope ≠ "" := execChallenge_groups hp
  unfold fallback
  rw [hp]
  simp [hg.1, hg.2.1, hg.2.2]

/-- A header that fails the challenge check drives `fallback` into its
throwing branch. -/
theorem fallback_err_of_not_ok {st : ProviderState} {h : String}
    (hp : challengeOk h = false) : fallback st h = .error (.challengeParse h) := by
  unfold challengeOk at hp
  unfold fallback
  cases hpc : parseChallenge h with
  | none => simp
  | some c =>
    rw [hpc] at hp
    simp at hp
    by_cases h1 : c.realm = ""
    · simp [h1]
    · by_cases h2 : c.service = ""
      · simp [h2]
      · simp [hp h1 h2]

/-- A header that passes the challenge check makes `fallback` succeed with
the captured fields. -/
theorem fallback_ok_of_parse {st : ProviderState} {h : String} {c : Challenge}
    (hpc : parseChallenge h = some c) :
    challengeOk h = true ∧
    fallback st h = .ok ⟨some c.realm, some c.service, some (jsSplitOnSpace c.scope), true⟩ := by
  have hg : c.realm ≠ "" ∧ c.service ≠ "" ∧ c.scope ≠ "" := execChallenge_groups hpc
  constructor
  · unfold challengeOk
    rw [hpc]
    have hcond : (decide (c.realm = "") || decide (c.service = "") || decide (c.scope = "")) = false := by
      simp [hg.1, hg.2.1, hg.2.2]
    simp [hcond]
  · exact fallback_of_parse st h c hpc

/-- Effect of one operation on `didFallback`. -/
theorem applyOp_didFallback (st : ProviderState) (op : Op) :
    (applyOp st op).didFallback = (st.didFallback || isFallbackSuccess op) := by
  cases op with
  | fallbackOp h =>
    simp only [applyOp, isFallbackSuccess]
    by_cases hok : challengeOk h = true
    · cases hpc : parseChallenge h with
      | none => unfold challengeOk at hok; rw [hpc] at hok; exact Bool.noConfusion hok
      | some c =>
        rw [(@fallback_ok_of_parse st h c hpc).2]
        simp [hok]
    · have hok2 : challengeOk h = false := by simpa using hok
      rw [@fallback_err_of_not_ok st h hok2]
      simp [hok2]
  | getSessionOp stores key transport scopes => simp [applyOp, isFallbackSuccess]
  | didFallbackQuery => simp [applyOp, isFallbackSuccess]
  | removeSessionOp sid => simp [applyOp, isFallbackSuccess]

/-- Effect of one operation on the two OAuth endpoint fields. -/
theorem applyOp_oauth_fields (st : ProviderState) (op : Op) :
    (applyOp st op).oAuthEndpoint.isSome = (st.oAuthEndpoint.isSome || isFallbackSuccess op) ∧
    (applyOp st op).oAuthService.isSome = (st.oAuthService.isSome || isFallbackSuccess op) := by
  cases op with
  | fallbackOp h =>
    simp only [applyOp, isFallbackSuccess]
    by_cases hok : challengeOk h = true
    · cases hpc : parseChallenge h with
      | none => unfold challengeOk at hok; rw [hpc] at hok; exact Bool.noConfusion hok
      | some c =>
        rw [(@fallback_ok_of_parse st h c hpc).2]
        simp [hok]
    · have hok2 : challengeOk h = false := by simpa using hok
      rw [@fallback_err_of_not_ok st h hok2]
      simp [hok2]
  | getSessionOp stores key transport scopes => simp [applyOp, isFallbackSuccess]
  | didFallbackQuery => simp [applyOp, isFallbackSuccess]
  | removeSessionOp sid => simp [applyOp, isFallbackSuccess]

/-- Accumulation of `didFallback` over a run. -/
theorem runOps_didFallback (ops : List Op) : ∀ st : ProviderState,
    (runOps st ops).didFallback = (st.didFallback || ops.any isFallbackSuccess) := by
  induction ops with
  | nil => intro st; simp [runOps]
  | cons op ops ih =>
    intro st
    have : runOps st (op :: ops) = runOps (applyOp st op) ops := rfl
    rw [this, ih (applyOp st op), applyOp_didFallback]
    simp [Bool.or_assoc]

/-- Endpoint fields accumulated over a run. -/
theorem runOps_oauth_fields (ops : List Op) : ∀ st : ProviderState,
    (runOps st ops).oAuthEndpoint.isSome = (st.oAuthEndpoint.isSome || ops.any isFallbackSuccess) ∧
    (runOps st ops).oAuthService.isSome = (st.oAuthService.isSome || ops.any isFallbackSuccess) := by
  induction ops with
  | nil => intro st; simp [runOps]
  | cons op ops ih =>
    intro st
    have hr : runOps st (op :: ops) = runOps (applyOp st op) ops := rfl
    have hf := applyOp_oauth_fields st op
    rw [hr]
    constructor
    · rw [(ih (applyOp st op)).1, hf.1]
      simp [Bool.or_assoc]
    · rw [(ih (applyOp st op)).2, hf.2]
      simp [Bool.or_assoc]

/-- Unfolding of the OAuth branch of `getSession`: once the credentials are
fetched and both OAuth fields are set, the call is the token request
followed by the JSON body read. -/
theorem getSession_oauth_unfold (st : ProviderState) (stores : Stores) (key : String)
    (transport : String → OAuthRequest → Except String (FetchedResponse TokenBody))
    (scopes : List String) (ep svc u s : String)
    (hep : st.oAuthEndpoint = some ep) (hsvc : st.oAuthService = some svc)
    (hcred : getBasicCredentials stores key = .ok ⟨u, s⟩) :
    getSession st stores key transport scopes =
      (match httpRequest ep (transport ep (oauthReq st u s svc scopes)) true with
       | .error e => .error e
       | .ok resp =>
         match resp.jsonResult with
         | .error m => .error (.bodyParse m)
         | .ok body =>
           .ok (⟨"oauth", "Bearer", u, u, body.token, scopes⟩,
                some (ep, oauthReq st u s svc scopes))) := by
  simp [getSession, hcred, hep, hsvc, oauthReq]

/-- C1: every header string accepted by the challenge parser makes
`fallback` succeed, and afterwards `oAuthEndpoint` is the captured realm,
`oAuthService` the captured service, `defaultScopes` the captured scope
split on single spaces, and `didFallback` is true. -/
theorem fallback_parses_and_sets_state (st : ProviderState) (h : String) (c : Challenge)
    (hp : parseChallenge h = some c) :
    fallback st h = .ok ⟨some c.realm, some c.service, some (jsSplitOnSpace c.scope), true⟩ :=
  fallback_of_parse st h c hp

theorem fallback_parses_and_sets_state_witness :
    parseChallenge goodHeader =
      some ⟨"https://auth.example/token", "registry.example", "repository:x:pull"⟩ ∧
    fallback initState goodHeader =
      .ok ⟨some "https://auth.example/token", some "registry.example",
           some ["repository:x:pull"], true⟩ := by
  constructor
  · decide
  · exact fallback_parses_and_sets_state initState goodHeader
      ⟨"https://auth.example/token", "registry.example", "repository:x:pull"⟩ (by decide)

/-- C4: a header the pattern does not match makes `fallback` throw a
challenge-parse error whose message contains the raw header text. -/
theorem fallback_rejects_malformed (st : ProviderState) (h : String)
    (hp : parseChallenge h = none) :
    fallback st h = .error (.challengeParse h) ∧
    ∃ pre post, errMessage (.challengeParse h) = pre ++ h ++ post := by
  constructor
  · unfold fallback
    rw [hp]
  · exact ⟨"Unable to parse WWW-Authenticate header: \"", "\"", rfl⟩

theorem fallback_rejects_malformed_witness :
    parseChallenge badHeader = none ∧
    (fallback initState badHeader = .error (.challengeParse badHeader) ∧
     ∃ pre post, errMessage (.challengeParse badHeader) = pre ++ badHeader ++ post) :=
  ⟨by decide, fallback_rejects_malformed initState badHeader (by decide)⟩

/-- C9: a `fallback` call with a header the parser rejects throws and
leaves all four state fields unchanged. -/
theorem fallback_failure_is_noop (st : ProviderState) (h : String)
    (hp : challengeOk h = false) :
    fallback st h = .error (.challengeParse h) ∧ applyOp st (.fallbackOp h) = st := by
  have hf := @fallback_err_of_not_ok st h hp
  refine ⟨hf, ?_⟩
  simp [applyOp, hf]

theorem fallback_failure_is_noop_witness :
    challengeOk badHeader = false ∧
    (fallback initState badHeader = .error (.challengeParse badHeader) ∧
     applyOp initState (.fallbackOp badHeader) = initState) :=
  ⟨by decide, fallback_failure_is_noop initState badHeader (by decide)⟩

/-- C3: with a response in hand, `httpRequest` fails with `unauthorized`
carrying the request URL exactly when `throwOnFailure` is true and the
status is 401; with `throwOnFailure` false or any other status it returns
normally, and the returned `succeeded` is true iff the status is in
[200, 300). -/
theorem httpRequest_401_policy {α : Type} (url : String) (r : FetchedResponse α) (tf : Bool) :
    (httpRequest url (.ok r) tf = .error (.unauthorized url) ↔ (tf = true ∧ r.status = 401)) ∧
    ((tf = false ∨ r.status ≠ 401) →
      httpRequest url (.ok r) tf =
        .ok ⟨flattenHeaders r.headerEntries, r.status, r.statusText,
             decide (200 ≤ r.status ∧ r.status < 300), r.jsonResult⟩) ∧
    (∀ resp : ResponseLike α, httpRequest url (.ok r) tf = .ok resp →
      (resp.succeeded = true ↔ (200 ≤ r.status ∧ r.status < 300))) := by
  by_cases hs : r.status = 401
  · by_cases ht : tf = true
    · subst ht
      have he : httpRequest url (.ok r) true = .error (.unauthorized url) := by
        simp [httpRequest, hs]
      refine ⟨⟨fun _ => ⟨rfl, hs⟩, fun _ => he⟩, ?_, ?_⟩
      · rintro (hf | hn)
        · exact Bool.noConfusion hf
        · exact absurd hs hn
      · intro resp hresp
        rw [he] at hresp
        exact Except.noConfusion hresp
    · have ht2 : tf = false := by simpa using ht
      subst ht2
      have hok : httpRequest url (.ok r) false =
          .ok ⟨flattenHeaders r.headerEntries, r.status, r.statusText,
               decide (200 ≤ r.status ∧ r.status < 300), r.jsonResult⟩ := by
        simp [httpRequest]
      refine ⟨⟨fun hcontra => ?_, fun hb => Bool.noConfusion hb.1⟩, fun _ => hok, ?_⟩
      · rw [hok] at hcontra
        exact Except.noConfusion hcontra
      · intro resp hresp
        rw [hok] at hresp
        injection hresp with hresp
        rw [← hresp]
        simp
  · have hcond : (tf && r.status == 401) = false := by
      cases tf <;> simp [hs]
    have hok : httpRequest url (.ok r) tf =
        .ok ⟨flattenHeaders r.headerEntries, r.status, r.statusText,
             decide (200 ≤ r.status ∧ r.status < 300), r.jsonResult⟩ := by
      simp [httpRequest, hcond]
    refine ⟨⟨fun hcontra => ?_, fun hb => absurd hb.2 hs⟩, fun _ => hok, ?_⟩
    · rw [hok] at hcontra
      exact Except.noConfusion hcontra
    · intro resp hresp
      rw [hok] at hresp
      injection hresp with hresp
      rw [← hresp]
      simp

theorem httpRequest_401_policy_witness :
    httpRequest "https://registry.example/v2/" (.ok (tokenResp 401)) true =
      .error (.unauthorized "https://registry.example/v2/") ∧
    httpRequest "https://registry.example/v2/" (.ok (tokenResp 401)) false =
      .ok ⟨flattenHeaders (tokenResp 401).headerEntries, (tokenResp 401).status,
           (tokenResp 401).statusText,
           decide (200 ≤ (tokenResp 401).status ∧ (tokenResp 401).status < 300),
           (tokenResp 401).jsonResult⟩ :=
  ⟨(httpRequest_401_policy "https://registry.example/v2/" (tokenResp 401) true).1.mpr ⟨rfl, rfl⟩,
   (httpRequest_401_policy "https://registry.example/v2/" (tokenResp 401) false).2.1 (Or.inl rfl)⟩

/-- C5: `getBasicCredentials` fails when the username is absent or empty,
fails when the secret lookup yields `undefined` or `null`, and succeeds
returning the empty secret when the username is present and nonempty and
the secret is the empty string. -/
theorem getBasicCredentials_policy (stores : Stores) (key : String) :
    ((stores.memento (key ++ ".username") = none ∨
      stores.memento (key ++ ".username") = some "") →
      getBasicCredentials stores key =
        .error (.credentialsNotFound ("Could not load username for " ++ key))) ∧
    (∀ u, stores.memento (key ++ ".username") = some u → u ≠ "" →
      (stores.secrets (key ++ ".secret") = .undef ∨
       stores.secrets (key ++ ".secret") = .null) →
      getBasicCredentials stores key =
        .error (.credentialsNotFound ("Could not load secret for " ++ key))) ∧
    (∀ u, stores.memento (key ++ ".username") = some u → u ≠ "" →
      stores.secrets (key ++ ".secret") = .val "" →
      getBasicCredentials stores key = .ok ⟨u, ""⟩) := by
  refine ⟨?_, ?_, ?_⟩
  · rintro (hu | hu) <;> simp [getBasicCredentials, hu]
  · rintro u hu hne (hsec | hsec) <;> simp [getBasicCredentials, hu, hne, hsec]
  · intro u hu hne hsec
    simp [getBasicCredentials, hu, hne, hsec]

theorem getBasicCredentials_policy_witness :
    getBasicCredentials storesNoUser "reg" =
      .error (.credentialsNotFound ("Could not load username for " ++ "reg")) ∧
    getBasicCredentials storesNullSecret "reg" =
      .error (.credentialsNotFound ("Could not load secret for " ++ "reg")) ∧
    getBasicCredentials storesEmptySecret "reg" = .ok ⟨"alice", ""⟩ :=
  ⟨(getBasicCredentials_policy storesNoUser "reg").1 (Or.inl rfl),
   (getBasicCredentials_policy storesNullSecret "reg").2.1 "alice" (by decide) (by decide)
     (Or.inr rfl),
   (getBasicCredentials_policy storesEmptySecret "reg").2.2 "alice" (by decide) (by decide)
     (by decide)⟩

/-- C7: in Basic mode (endpoint or service absent) `getSession` first
fetches fresh credentials, failing the whole call on their failure, and
otherwise returns — with no network call — a `basic`/`Basic` session whose
access token is base64(username:secret) and whose scopes are the caller
scopes unchanged. -/
theorem getSession_basic_mode (st : ProviderState) (stores : Stores) (key : String)
    (transport : String → OAuthRequest → Except String (FetchedResponse TokenBody))
    (scopes : List String)
    (hmode : st.oAuthEndpoint = none ∨ st.oAuthService = none) :
    (∀ e, getBasicCredentials stores key = .error e →
      getSession st stores key transport scopes = .error e) ∧
    (∀ u s, getBasicCredentials stores key = .ok ⟨u, s⟩ →
      getSession st stores key transport scopes =
        .ok (⟨"basic", "Basic", u, u, some (getBasicAuthToken u s), scopes⟩, none)) := by
  constructor
  · intro e he
    simp [getSession, he]
  · intro u s hc
    rcases hmode with h | h
    · cases hsvc : st.oAuthService <;> simp [getSession, hc, h, hsvc]
    · cases hep : st.oAuthEndpoint <;> simp [getSession, hc, h, hep]

theorem getSession_basic_mode_witness :
    getBasicCredentials storesAlice "reg" = .ok ⟨"alice", "s3cr3t"⟩ ∧
    getSession initState storesAlice "reg" noNetwork ["repository:y:pull"] =
      .ok (⟨"basic", "Basic", "alice", "alice", some "YWxpY2U6czNjcjN0",
            ["repository:y:pull"]⟩, none) := by
  constructor
  · rfl
  · exact (getSession_basic_mode initState storesAlice "reg" noNetwork ["repository:y:pull"]
      (Or.inl rfl)).2 "alice" "s3cr3t" rfl

/-- C2: in OAuth mode with fetched credentials, `getSession` issues a GET
to the OAuth endpoint whose headers are the Basic authorization,
`grant_type=password`, the service, and the space-joined concatenation of
the default scopes followed by the caller scopes, and on success returns an
`oauth`/`Bearer` session whose access token is the `token` field of the
response body. -/
theorem getSession_oauth_request_shape (st : ProviderState) (stores : Stores) (key : String)
    (transport : String → OAuthRequest → Except String (FetchedResponse TokenBody))
    (scopes : List String) (ep svc u s : String)
    (resp : FetchedResponse TokenBody) (body : TokenBody)
    (hep : st.oAuthEndpoint = some ep) (hsvc : st.oAuthService = some svc)
    (hcred : getBasicCredentials stores key = .ok ⟨u, s⟩)
    (htr : transport ep (oauthReq st u s svc scopes) = .ok resp)
    (hst : resp.status ≠ 401) (hjson : resp.jsonResult = .ok body) :
    oauthReq st u s svc scopes =
      ⟨"GET", [("Authorization", "Basic " ++ getBasicAuthToken u s),
               ("grant_type", "password"),
               ("service", svc),
               ("scope", String.intercalate " " (st.defaultScopes.getD [] ++ scopes))]⟩ ∧
    getSession st stores key transport scopes =
      .ok (⟨"oauth", "Bearer", u, u, body.token, scopes⟩,
           some (ep, oauthReq st u s svc scopes)) := by
  refine ⟨rfl, ?_⟩
  rw [getSession_oauth_unfold st stores key transport scopes ep svc u s hep hsvc hcred, htr]
  have h401 : (resp.status == 401) = false := by simpa using hst
  simp [httpRequest, h401, hjson]

theorem getSession_oauth_request_shape_witness :
    getSession oauthState storesAlice "reg" (okTransport 200) ["repository:y:pull"] =
      .ok (⟨"oauth", "Bearer", "alice", "alice", some "opaque-token", ["repository:y:pull"]⟩,
           some ("https://auth.example/token",
                 ⟨"GET", [("Authorization", "Basic YWxpY2U6czNjcjN0"),
                          ("grant_type", "password"),
                          ("service", "registry.example"),
                          ("scope", "repository:x:pull repository:y:pull")]⟩)) := by
  exact (getSession_oauth_request_shape oauthState storesAlice "reg" (okTransport 200)
    ["repository:y:pull"] "https://auth.example/token" "registry.example" "alice" "s3cr3t"
    (tokenResp 200) ⟨some "opaque-token"⟩ rfl rfl rfl rfl (by decide) rfl).2

/-- C10: in OAuth mode with fetched credentials, `getSession` never reads
the `succeeded` flag: any token-endpoint response whose status is not 401
yields a session whose access token is whatever the `token` field of the
body holds; only a 401 from the endpoint, a transport rejection, or a JSON
parse failure fails the call. -/
theorem getSession_oauth_ignores_succeeded (st : ProviderState) (stores : Stores) (key : String)
    (transport : String → OAuthRequest → Except String (FetchedResponse TokenBody))
    (scopes : List String) (ep svc u s : String)
    (hep : st.oAuthEndpoint = some ep) (hsvc : st.oAuthService = some svc)
    (hcred : getBasicCredentials stores key = .ok ⟨u, s⟩) :
    (∀ resp body, transport ep (oauthReq st u s svc scopes) = .ok resp →
      resp.status ≠ 401 → resp.jsonResult = .ok body →
      getSession st stores key transport scopes =
        .ok (⟨"oauth", "Bearer", u, u, body.token, scopes⟩,
             some (ep, oauthReq st u s svc scopes))) ∧
    (∀ resp, transport ep (oauthReq st u s svc scopes) = .ok resp → resp.status = 401 →
      getSession st stores key transport scopes = .error (.unauthorized ep)) ∧
    (∀ m, transport ep (oauthReq st u s svc scopes) = .error m →
      getSession st stores key transport scopes = .error (.transport m)) ∧
    (∀ resp m, transport ep (oauthReq st u s svc scopes) = .ok resp → resp.status ≠ 401 →
      resp.jsonResult = .error m →
      getSession st stores key transport scopes = .error (.bodyParse m)) := by
  have hu := getSession_oauth_unfold st stores key transport scopes ep svc u s hep hsvc hcred
  refine ⟨?_, ?_, ?_, ?_⟩
  · intro resp body htr hst hjson
    rw [hu, htr]
    have h401 : (resp.status == 401) = false := by simpa using hst
    simp [httpRequest, h401, hjson]
  · intro resp htr hst
    rw [hu, htr]
    simp [httpRequest, hst]
  · intro m htr
    rw [hu, htr]
    simp [httpRequest]
  · intro resp m htr hst hjson
    rw [hu, htr]
    have h401 : (resp.status == 401) = false := by simpa using hst
    simp [httpRequest, h401, hjson]

theorem getSession_oauth_ignores_succeeded_witness :
    getSession oauthState storesAlice "reg" (okTransport 500) ["repository:y:pull"] =
      .ok (⟨"oauth", "Bearer", "alice", "alice", some "opaque-token", ["repository:y:pull"]⟩,
           some ("https://auth.example/token",
                 oauthReq oauthState "alice" "s3cr3t" "registry.example"
                   ["repository:y:pull"])) ∧
    getSession oauthState storesAlice "reg" (okTransport 401) ["repository:y:pull"] =
      .error (.unauthorized "https://auth.example/token") :=
  ⟨(getSession_oauth_ignores_succeeded oauthState storesAlice "reg" (okTransport 500)
      ["repository:y:pull"] "https://auth.example/token" "registry.example" "alice" "s3cr3t"
      rfl rfl rfl).1 (tokenResp 500) ⟨some "opaque-token"⟩ rfl (by decide) rfl,
   (getSession_oauth_ignores_succeeded oauthState storesAlice "reg" (okTransport 401)
      ["repository:y:pull"] "https://auth.example/token" "registry.example" "alice" "s3cr3t"
      rfl rfl rfl).2.1 (tokenResp 401) rfl rfl⟩

/-- C6: in every provider state reachable from construction by any sequence
of operations, the endpoint and service fields are both absent or both
present, and no operation other than `fallback` mutates the state. -/
theorem provider_state_invariant :
    (∀ ops : List Op, bothOrNeither (runOps initState ops)) ∧
    (∀ (st : ProviderState) (op : Op), isFallbackOp op = false → applyOp st op = st) := by
  constructor
  · intro ops
    unfold bothOrNeither
    rw [(runOps_oauth_fields ops initState).1, (runOps_oauth_fields ops initState).2]
    rfl
  · intro st op hop
    cases op with
    | fallbackOp h => exact absurd hop (by simp [isFallbackOp])
    | getSessionOp stores key transport scopes => rfl
    | didFallbackQuery => rfl
    | removeSessionOp sid => rfl

theorem provider_state_invariant_witness :
    bothOrNeither (runOps initState [Op.fallbackOp goodHeader, Op.removeSessionOp none]) ∧
    applyOp oauthState Op.didFallbackQuery = oauthState :=
  ⟨provider_state_invariant.1 [Op.fallbackOp goodHeader, Op.removeSessionOp none],
   provider_state_invariant.2 oauthState Op.didFallbackQuery rfl⟩

/-- C8: after any run from construction, `didFallback` is true iff some
`fallback` call in the run succeeded; `didFallback` is monotonic; and OAuth
mode, once entered, is never left. -/
theorem didFallback_temporal :
    (∀ ops : List Op, (runOps initState ops).didFallback = ops.any isFallbackSuccess) ∧
    (∀ (st : ProviderState) (ops : List Op), st.didFallback = true →
      (runOps st ops).didFallback = true) ∧
    (∀ (st : ProviderState) (ops : List Op), oauthMode st = true →
      oauthMode (runOps st ops) = true) := by
  refine ⟨fun ops => ?_, fun st ops hd => ?_, fun st ops hm => ?_⟩
  · rw [runOps_didFallback ops initState]
    rfl
  · rw [runOps_didFallback ops st, hd]
    rfl
  · unfold oauthMode at hm ⊢
    obtain ⟨he, hs⟩ := Bool.and_eq_true_iff.mp hm
    rw [(runOps_oauth_fields ops st).1, (runOps_oauth_fields ops st).2, he, hs]
    rfl

theorem didFallback_temporal_witness :
    (runOps initState [Op.fallbackOp goodHeader]).didFallback =
      [Op.fallbackOp goodHeader].any isFallbackSuccess ∧
    (runOps oauthState [Op.removeSessionOp none]).didFallback = true ∧
    oauthMode (runOps oauthState [Op.getSessionOp storesAlice "reg" noNetwork []]) = true :=
  ⟨didFallback_temporal.1 [Op.fallbackOp goodHeader],
   didFallback_temporal.2.1 oauthState [Op.removeSessionOp none] rfl,
   didFallback_temporal.2.2 oauthState [Op.getSessionOp storesAlice "reg" noNetwork []] rfl⟩
